import Mathlib

/-!
Verification of the voice-command photo editor (`src/main.py`).

The development shallowly embeds the editor's core: the undo/redo history
manager (`MainWindow.save_image_state` / `undo` / `redo`), the session state
that every mutating operation threads through, the adjustment baseline caching
(`apply_brightness` / `apply_contrast` / `apply_saturation` / `apply_hue` and
`reset_adjustments`), and the voice-command interpretation pipeline inside
`MainWindow.handle_command` (fuzzy keyword matching followed by the
parameterized regex patterns compiled in `_compile_patterns`).

Raster frames and the external OpenCV primitives (JPEG codec, colour-space
conversions) are collaborators of the core, so the session state machine is
parametric in the frame type and in a record `Ext` bundling those external
per-frame operations.  Where a claim is about concrete pixel arithmetic that
the source spells out (the hue-channel shift, the `convertScaleAbs`
brightness map), that arithmetic is modelled concretely.
-/

namespace PhotoEditor

/-- The `clamp` utility of `main.py` (lines 42-44): `max(lo, min(hi, val))`. -/
def clamp (val lo hi : Int) : Int := max lo (min hi val)

/-!  ## External collaborators

`Ext` bundles the external image-library calls performed by the session:
the JPEG snapshot codec (`compress_image` / `decompress_image`, which wrap
`cv2.imencode` / `cv2.imdecode`) and the per-frame adjustment primitives.
`brightOp v` stands for `cv2.convertScaleAbs(frame, alpha=1, beta=v)`,
`contrastOp v` for `cv2.convertScaleAbs(frame, alpha=v/100.0, beta=0)`,
`satOp v` for the HSV saturation-channel scaling block of `apply_saturation`,
and `hueOp v` for the HSV hue-channel shift block of `apply_hue`; in each
case `v` is the value already clamped by the session code. -/
structure Ext (Frame Snap : Type) where
  compress : Frame → Snap
  decompress : Snap → Frame
  brightOp : Int → Frame → Frame
  contrastOp : Int → Frame → Frame
  satOp : Int → Frame → Frame
  hueOp : Int → Frame → Frame

/-!  ## Session state

The mutable editing state owned by `MainWindow` (`__init__`, lines 336-353,
plus the lazily created `_brightness_base` / `_contrast_base` attributes and
the four adjustment sliders).  An absent `_brightness_base` attribute is
modelled as `none`. -/
structure Session (Frame Snap : Type) where
  current_image : Option Frame
  original_image : Option Frame
  undo_stack : List Snap
  redo_stack : List Snap
  has_unsaved_changes : Bool
  brightness_base : Option Frame
  contrast_base : Option Frame
  brightness_val : Int
  contrast_val : Int
  saturation_val : Int
  hue_val : Int
deriving DecidableEq

variable {Frame Snap : Type}

/-- The freshly constructed window: no image, empty stacks, no baselines,
sliders at their defaults (0, 100, 100, 0). -/
def initSession : Session Frame Snap where
  current_image := none
  original_image := none
  undo_stack := []
  redo_stack := []
  has_unsaved_changes := false
  brightness_base := none
  contrast_base := none
  brightness_val := 0
  contrast_val := 100
  saturation_val := 100
  hue_val := 0

/-- `self.max_stack_size` (line 344). -/
def max_stack_size : Nat := 20

/-- `MainWindow.save_image_state` (lines 969-982): if an image is loaded,
compress it, append to the undo stack, evict the oldest entry (`pop(0)`)
when the stack exceeds `max_stack_size`, clear the redo stack and mark the
session dirty. -/
def save_image_state (E : Ext Frame Snap) (s : Session Frame Snap) :
    Session Frame Snap :=
  match s.current_image with
  | none => s
  | some img =>
    let pushed := s.undo_stack ++ [E.compress img]
    let capped := if max_stack_size < pushed.length then pushed.drop 1 else pushed
    { s with undo_stack := capped, redo_stack := [], has_unsaved_changes := true }

/-- `MainWindow.undo` (lines 984-995): no-op on an empty undo stack,
otherwise push the compressed current frame onto the redo stack and restore
(the decompression of) the popped top of the undo stack.  The source would
fault if the stack were non-empty with no current image; that state is
unreachable (see `reachable_stacks_current`), and the model leaves it a
no-op. -/
def undoOp (E : Ext Frame Snap) (s : Session Frame Snap) : Session Frame Snap :=
  match s.undo_stack.getLast?, s.current_image with
  | some top, some cur =>
    { s with redo_stack := s.redo_stack ++ [E.compress cur],
             current_image := some (E.decompress top),
             undo_stack := s.undo_stack.dropLast }
  | _, _ => s

/-- `MainWindow.redo` (lines 997-1008): symmetric to `undoOp`; note the push
onto the undo stack has no bound check of its own. -/
def redoOp (E : Ext Frame Snap) (s : Session Frame Snap) : Session Frame Snap :=
  match s.redo_stack.getLast?, s.current_image with
  | some top, some cur =>
    { s with undo_stack := s.undo_stack ++ [E.compress cur],
             current_image := some (E.decompress top),
             redo_stack := s.redo_stack.dropLast }
  | _, _ => s

/-- The common shape of the twelve filter/transform handlers
(`apply_grayscale`, `apply_blur`, `apply_sharpen`, `apply_edge_detection`,
`apply_sepia`, `apply_invert`, `apply_histogram_equalization`,
`apply_adaptive_thresholding`, `rotate_left`, `rotate_right`,
`flip_horizontal`, `flip_vertical`): guard on `_check_image`, call
`save_image_state`, then replace the current frame by a pure function of it
(the respective one-line OpenCV call `fn`). -/
def applyFilter (E : Ext Frame Snap) (fn : Frame → Frame)
    (s : Session Frame Snap) : Session Frame Snap :=
  match s.current_image with
  | none => s
  | some img =>
    let s1 := save_image_state E s
    { s1 with current_image := some (fn img) }

/-- `MainWindow.reset_image` (lines 1289-1298): guard on the original image,
save state (so the reset is undo-able), then restore a copy of the
original. -/
def reset_image (E : Ext Frame Snap) (s : Session Frame Snap) :
    Session Frame Snap :=
  match s.original_image with
  | none => s
  | some orig =>
    let s1 := save_image_state E s
    { s1 with current_image := some orig }

/-- `MainWindow._load_image_from_path` (lines 852-905), state effects only:
store the decoded frame as both current and original image, clear both
history stacks, and mark the session clean.  Note the source does **not**
touch `_brightness_base` / `_contrast_base` here. -/
def load_image (f : Frame) (s : Session Frame Snap) : Session Frame Snap :=
  { s with current_image := some f, original_image := some f,
           undo_stack := [], redo_stack := [], has_unsaved_changes := false }

/-- `MainWindow.apply_brightness` (lines 1120-1131): guard on `_check_image`;
lazily cache `_brightness_base` from the current frame; clamp the slider
value to `[-100, 100]`; recompute the current frame from the cached baseline
with `cv2.convertScaleAbs(base, alpha=1, beta=v)`. -/
def apply_brightness (E : Ext Frame Snap) (value : Int)
    (s : Session Frame Snap) : Session Frame Snap :=
  match s.current_image with
  | none => s
  | some cur =>
    let base := s.brightness_base.getD cur
    let v := clamp value (-100) 100
    { s with brightness_base := some base,
             current_image := some (E.brightOp v base) }

/-- `MainWindow.apply_contrast` (lines 1133-1144): as `apply_brightness` but
with its own independent `_contrast_base`, clamp to `[0, 200]` and
`cv2.convertScaleAbs(base, alpha=v/100.0, beta=0)`. -/
def apply_contrast (E : Ext Frame Snap) (value : Int)
    (s : Session Frame Snap) : Session Frame Snap :=
  match s.current_image with
  | none => s
  | some cur =>
    let base := s.contrast_base.getD cur
    let v := clamp value 0 200
    { s with contrast_base := some base,
             current_image := some (E.contrastOp v base) }

/-- `MainWindow.apply_saturation` (lines 1146-1160): guard, clamp to
`[0, 200]`, then recompute from the **live** current frame (no baseline
cache): HSV conversion, scale of the saturation channel, conversion back. -/
def apply_saturation (E : Ext Frame Snap) (value : Int)
    (s : Session Frame Snap) : Session Frame Snap :=
  match s.current_image with
  | none => s
  | some cur =>
    let v := clamp value 0 200
    { s with current_image := some (E.satOp v cur) }

/-- `MainWindow.apply_hue` (lines 1162-1176): guard, clamp to `[-180, 180]`,
then recompute from the live current frame: HSV conversion, additive shift of
the hue channel modulo 180, conversion back. -/
def apply_hue (E : Ext Frame Snap) (value : Int)
    (s : Session Frame Snap) : Session Frame Snap :=
  match s.current_image with
  | none => s
  | some cur =>
    let v := clamp value (-180) 180
    { s with current_image := some (E.hueOp v cur) }

/-- `QSlider.setValue` on the brightness slider: Qt clamps the requested
value to the slider range `[-100, 100]` and emits `valueChanged` (wired to
`apply_brightness`) only when the stored value actually changes. -/
def setBrightnessSlider (E : Ext Frame Snap) (value : Int)
    (s : Session Frame Snap) : Session Frame Snap :=
  let v := clamp value (-100) 100
  if v = s.brightness_val then s
  else apply_brightness E v { s with brightness_val := v }

/-- `QSlider.setValue` on the contrast slider (range `[0, 200]`). -/
def setContrastSlider (E : Ext Frame Snap) (value : Int)
    (s : Session Frame Snap) : Session Frame Snap :=
  let v := clamp value 0 200
  if v = s.contrast_val then s
  else apply_contrast E v { s with contrast_val := v }

/-- `QSlider.setValue` on the saturation slider (range `[0, 200]`). -/
def setSaturationSlider (E : Ext Frame Snap) (value : Int)
    (s : Session Frame Snap) : Session Frame Snap :=
  let v := clamp value 0 200
  if v = s.saturation_val then s
  else apply_saturation E v { s with saturation_val := v }

/-- `QSlider.setValue` on the hue slider (range `[-180, 180]`). -/
def setHueSlider (E : Ext Frame Snap) (value : Int)
    (s : Session Frame Snap) : Session Frame Snap :=
  let v := clamp value (-180) 180
  if v = s.hue_val then s
  else apply_hue E v { s with hue_val := v }

/-- `MainWindow.reset_adjustments` (lines 1178-1189): move the four sliders
back to their defaults (each `setValue` re-triggering the corresponding
adjustment when the value changes), then delete the cached
`_brightness_base` and `_contrast_base` attributes. -/
def reset_adjustments (E : Ext Frame Snap) (s : Session Frame Snap) :
    Session Frame Snap :=
  let s1 := setBrightnessSlider E 0 s
  let s2 := setContrastSlider E 100 s1
  let s3 := setSaturationSlider E 100 s2
  let s4 := setHueSlider E 0 s3
  { s4 with brightness_base := none, contrast_base := none }

/-!  ## The session as a state machine -/

/-- One user-visible operation on the session.  `filter fn` ranges over the
twelve filter/transform buttons with `fn` the respective OpenCV frame
function. -/
inductive Op (Frame : Type) where
  | load (f : Frame)
  | filter (fn : Frame → Frame)
  | resetImage
  | undo
  | redo
  | brightness (v : Int)
  | contrast (v : Int)
  | saturation (v : Int)
  | hue (v : Int)
  | setBrightness (v : Int)
  | setContrast (v : Int)
  | setSaturation (v : Int)
  | setHue (v : Int)
  | resetAdjustments

/-- Dispatch of one operation. -/
def stepOp (E : Ext Frame Snap) : Op Frame → Session Frame Snap → Session Frame Snap
  | .load f => load_image f
  | .filter fn => applyFilter E fn
  | .resetImage => reset_image E
  | .undo => undoOp E
  | .redo => redoOp E
  | .brightness v => apply_brightness E v
  | .contrast v => apply_contrast E v
  | .saturation v => apply_saturation E v
  | .hue v => apply_hue E v
  | .setBrightness v => setBrightnessSlider E v
  | .setContrast v => setContrastSlider E v
  | .setSaturation v => setSaturationSlider E v
  | .setHue v => setHueSlider E v
  | .resetAdjustments => reset_adjustments E

/-- Run a sequence of operations from a state. -/
def runOps (E : Ext Frame Snap) (ops : List (Op Frame))
    (s : Session Frame Snap) : Session Frame Snap :=
  ops.foldl (fun s op => stepOp E op s) s

/-- The frame reached by folding a prefix of mutating frame functions over
the initially loaded frame. -/
def frameAt (f0 : Frame) (gs : List (Frame → Frame)) : Frame :=
  gs.foldl (fun f g => g f) f0

/-- The intermediate frames `[f₀, g₁ f₀, …]` produced while folding `gs`
over `f0`, excluding the final one; these are exactly the pre-mutation
frames snapshotted by `save_image_state`. -/
def histFrames (f0 : Frame) : List (Frame → Frame) → List Frame
  | [] => []
  | g :: gs => f0 :: histFrames (g f0) gs

/-!  ## Concrete pixel arithmetic

`cv2.convertScaleAbs(src, alpha, beta)` computes, per element,
`saturate_cast<uchar>(|src*alpha + beta|)` — it takes an absolute value
**before** saturating to `[0, 255]` (OpenCV's documented contract).
`apply_brightness` calls it with `alpha=1`, `beta=v`. -/
def convertScaleAbs1 (beta x : Int) : Int := min 255 ((x + beta).natAbs : Int)

/-- `apply_brightness`'s frame operation on a frame viewed as its flat list
of 8-bit channel samples. -/
def brightFrame (beta : Int) (f : List Int) : List Int :=
  f.map (convertScaleAbs1 beta)

/-- Line 1173 of `apply_hue`: `hsv[:, :, 0] = (hsv[:, :, 0] + v) % 180`,
acting on one hue sample (NumPy's `%` on a positive divisor agrees with
`Int.emod`). -/
def hueChannelShift (v h : Int) : Int := (h + v) % 180

/-- The full hue-channel action of `MainWindow.apply_hue` on one pixel:
the slider value is first clamped to `[-180, 180]` (line 1166), then added
modulo 180 (line 1173). -/
def hueShift (value h : Int) : Int := hueChannelShift (clamp value (-180) 180) h

/-!  ## Grayscale on a possibly single-channel frame (for `apply_grayscale`) -/

/-- A frame as stored by OpenCV: either a single-channel (2-dimensional)
buffer or a 3-channel BGR buffer, pixel data flattened to lists. -/
inductive GFrame where
  | gray (p : List Nat)
  | color (p : List (Nat × Nat × Nat))
deriving DecidableEq

/-- The frame function of `apply_grayscale` (lines 1013-1021): convert with
`cv2.cvtColor(_, COLOR_BGR2GRAY)` (the external conversion `cvt`) only when
`ndim == 3`; a single-channel frame is left untouched. -/
def grayscaleFn (cvt : List (Nat × Nat × Nat) → List Nat) : GFrame → GFrame
  | .gray p => .gray p
  | .color p => .gray (cvt p)

/-- `MainWindow.apply_grayscale` as a session operation. -/
def apply_grayscale {Snap : Type} (E : Ext GFrame Snap)
    (cvt : List (Nat × Nat × Nat) → List Nat) (s : Session GFrame Snap) :
    Session GFrame Snap :=
  applyFilter E (grayscaleFn cvt) s

/-!  ## Command interpretation (`MainWindow.handle_command`, lines 1302-1381)

The external similarity collaborator `fuzzywuzzy.fuzz.ratio` is modelled as
the normalized indel similarity `round(200·LCS(a,b) / (|a|+|b|))` with
Python's round-half-to-even — the Levenshtein ratio with substitution cost 2
that `fuzz.ratio` computes, on a 0–100 scale (the spec leaves the exact
similarity algorithm open beyond this contract). -/

/-- Python's `round` to an integer for the non-negative rational
`num / den` (half-to-even). -/
def pyRound (num den : Nat) : Nat :=
  let q := num / den
  let r := num % den
  if 2 * r < den then q
  else if den < 2 * r then q + 1
  else if q % 2 = 0 then q else q + 1

/-- One row update of the longest-common-subsequence dynamic program:
`prev` is the row for the previous character of `a` (aligned so its head is
the diagonal entry), `left` the entry just computed in the current row. -/
def lcsRowAux (x : Char) : List Char → List Nat → Nat → List Nat
  | c :: bs, pj :: prest, left =>
    let v := if x = c then pj + 1 else max (prest.headD 0) left
    v :: lcsRowAux x bs prest v
  | _, _, _ => []

/-- The DP row for prefix `… x` of `a` against all prefixes of `b`. -/
def lcsRow (x : Char) (b : List Char) (prev : List Nat) : List Nat :=
  0 :: lcsRowAux x b prev 0

/-- Length of a longest common subsequence of `a` and `b`. -/
def lcsLen (a b : List Char) : Nat :=
  (a.foldl (fun row x => lcsRow x b row) (List.replicate (b.length + 1) 0)).getLastD 0

/-- The 0–100 similarity score of `fuzz.ratio`. -/
def fuzzScore (a b : List Char) : Nat :=
  let ls := a.length + b.length
  if ls = 0 then 100 else pyRound (200 * lcsLen a b) ls

/-- `cmd = command.strip().lower()` (line 1309). -/
def normalize (s : List Char) : List Char :=
  ((((s.dropWhile Char.isWhitespace).reverse).dropWhile Char.isWhitespace).reverse).map
    Char.toLower

/-- The keys of the `commands` dictionary (lines 1324-1347), in insertion
order — Python dictionaries iterate in insertion order, which is the
enumeration order of the fuzzy loop. -/
def commandKeys : List String :=
  ["grayscale", "blur", "sharpen", "edge", "sepia", "invert", "histogram",
   "adaptive", "saturation", "rotate left", "rotate right", "flip horizontal",
   "flip vertical", "zoom in", "zoom out", "reset zoom", "fit", "undo",
   "redo", "reset", "help", "exit"]

/-- Loop body of the fuzzy phase (lines 1353-1357):
`if score > 75 and score > best_score: best_score, best_match = score, key`. -/
def fuzzyStep (cmd : List Char) (best : Option String × Nat) (key : String) :
    Option String × Nat :=
  let score := fuzzScore cmd key.toList
  if 75 < score ∧ best.2 < score then (some key, score) else best

/-- The fuzzy phase: fold the loop body over the keyword vocabulary starting
from `best_match = None, best_score = 0`. -/
def fuzzyBest (cmd : List Char) : Option String × Nat :=
  commandKeys.foldl (fuzzyStep cmd) (none, 0)

/-- Parse `-?\d+` at the current position (greedy digits), returning the
extracted integer as `int(m.group(1))` does. -/
def digitsToNat (ds : List Char) : Nat :=
  ds.foldl (fun n c => 10 * n + (c.toNat - 48)) 0

/-- Signed-integer head of a string, or `none`. -/
def parseSigned (s : List Char) : Option Int :=
  match s with
  | '-' :: rest =>
    let ds := rest.takeWhile Char.isDigit
    if ds = [] then none else some (-(digitsToNat ds : Int))
  | _ =>
    let ds := s.takeWhile Char.isDigit
    if ds = [] then none else some ((digitsToNat ds : Int))

/-- The `\s*(?:by)?\s*(-?\d+)` tail of the patterns from `_compile_patterns`
(lines 807-810), with the regex backtracking resolved: greedy whitespace,
then the optional literal `by` (preferred), then greedy whitespace, then the
signed integer; if taking `by` leaves no integer the engine retries without
it. -/
def afterKeyword (rest : List Char) : Option Int :=
  let r1 := rest.dropWhile Char.isWhitespace
  if ['b', 'y'].isPrefixOf r1 then
    match parseSigned ((r1.drop 2).dropWhile Char.isWhitespace) with
    | some n => some n
    | none => parseSigned r1
  else parseSigned r1

/-- Try each keyword alternative, in the pattern's alternation order, as a
prefix at the current position. -/
def matchKeywordsAt (kws : List (List Char)) (s : List Char) : Option Int :=
  kws.findSome? fun kw =>
    if kw.isPrefixOf s then afterKeyword (s.drop kw.length) else none

/-- `re.search` semantics: try the pattern at each start position from the
left; the first position where it matches wins. -/
def searchKeywordNumber (kws : List (List Char)) : List Char → Option Int
  | [] => none
  | c :: rest =>
    match matchKeywordsAt kws (c :: rest) with
    | some n => some n
    | none => searchKeywordNumber kws rest

/-- `self.re_brightness = re.compile(r"(?:brightness|brighten)\s*(?:by)?\s*(-?\d+)")`
applied with `.search`. -/
def re_brightness (s : List Char) : Option Int :=
  searchKeywordNumber ["brightness".toList, "brighten".toList] s

/-- `self.re_contrast`, as `re_brightness`. -/
def re_contrast (s : List Char) : Option Int :=
  searchKeywordNumber ["contrast".toList] s

/-- `self.re_saturation`, with the `saturate` synonym. -/
def re_saturation (s : List Char) : Option Int :=
  searchKeywordNumber ["saturation".toList, "saturate".toList] s

/-- `self.re_hue`. -/
def re_hue (s : List Char) : Option Int :=
  searchKeywordNumber ["hue".toList] s

/-- The resolved outcome of one utterance: a zero-argument keyword action or
a parameterized slider adjustment. -/
inductive Action where
  | cmd (key : String)
  | brightness (n : Int)
  | contrast (n : Int)
  | saturation (n : Int)
  | hue (n : Int)
deriving DecidableEq

/-- The command-resolution core of `MainWindow.handle_command`
(lines 1302-1381), stripped of its UI side effects (history-log display,
status bar): normalize the utterance, run the fuzzy phase first, and only
if no keyword clears the 75 threshold try the four parameterized patterns in
the fixed order brightness, contrast, saturation, hue; `none` is the
"command not recognized" outcome. -/
def interpret (command : String) : Option Action :=
  let c := normalize command.toList
  match (fuzzyBest c).1 with
  | some key => some (Action.cmd key)
  | none =>
    match re_brightness c with
    | some n => some (Action.brightness n)
    | none =>
      match re_contrast c with
      | some n => some (Action.contrast n)
      | none =>
        match re_saturation c with
        | some n => some (Action.saturation n)
        | none =>
          match re_hue c with
          | some n => some (Action.hue n)
          | none => none

/-!  ## Tolerance tracking and concrete collaborator instantiations -/

/-- A snapshot stack tracked within codec tolerance by a list of frames:
each stored snapshot decompresses to within `near` of the frame it
recorded.  `near` abstracts "pixel-identical up to the lossy compression
tolerance" of the JPEG quality-90 codec. -/
def Tracks (near : Frame → Frame → Prop) (E : Ext Frame Snap)
    (stack : List Snap) (l : List Frame) : Prop :=
  List.Forall₂ (fun u f => near (E.decompress u) f) stack l

/-- Concrete collaborators on integer-list frames: a lossless stand-in
codec, the faithful `convertScaleAbs`-based brightness map, and arithmetic
stand-ins for the other adjustments; used to evaluate the session on
concrete inputs. -/
def extSample : Ext (List Int) (List Int) where
  compress := id
  decompress := id
  brightOp := brightFrame
  contrastOp := fun v f => f.map (· * v)
  satOp := fun v f => f.map (· * v)
  hueOp := fun v f => f.map (· + v)

/-- Degenerate collaborators on single-integer frames, for witnesses. -/
def extInt : Ext Int Int where
  compress := id
  decompress := id
  brightOp := fun v f => f + v
  contrastOp := fun v f => f * v
  satOp := fun v f => f * v
  hueOp := fun v f => f + v

/-- Collaborators over `GFrame`, for evaluating `apply_grayscale`. -/
def extG : Ext GFrame GFrame where
  compress := id
  decompress := id
  brightOp := fun _ f => f
  contrastOp := fun _ f => f
  satOp := fun _ f => f
  hueOp := fun _ f => f

/-!  # Theorems -/

/-!  ## Helper lemmas about the session operations -/

/-- The four adjustment handlers never touch the history stacks or the
dirty flag. -/
theorem adjustments_leave_history (E : Ext Frame Snap) (v : Int)
    (s : Session Frame Snap) :
    ((apply_brightness E v s).undo_stack = s.undo_stack ∧
      (apply_brightness E v s).redo_stack = s.redo_stack ∧
      (apply_brightness E v s).has_unsaved_changes = s.has_unsaved_changes) ∧
    ((apply_contrast E v s).undo_stack = s.undo_stack ∧
      (apply_contrast E v s).redo_stack = s.redo_stack ∧
      (apply_contrast E v s).has_unsaved_changes = s.has_unsaved_changes) ∧
    ((apply_saturation E v s).undo_stack = s.undo_stack ∧
      (apply_saturation E v s).redo_stack = s.redo_stack ∧
      (apply_saturation E v s).has_unsaved_changes = s.has_unsaved_changes) ∧
    ((apply_hue E v s).undo_stack = s.undo_stack ∧
      (apply_hue E v s).redo_stack = s.redo_stack ∧
      (apply_hue E v s).has_unsaved_changes = s.has_unsaved_changes) := by
  cases h : s.current_image <;>
    simp [apply_brightness, apply_contrast, apply_saturation, apply_hue, h]

/-- Characterization of `save_image_state` when an image is loaded. -/
theorem save_image_state_spec (E : Ext Frame Snap) (s : Session Frame Snap)
    (f : Frame) (hc : s.current_image = some f) :
    (save_image_state E s).undo_stack =
      (if max_stack_size < s.undo_stack.length + 1
        then (s.undo_stack ++ [E.compress f]).drop 1
        else s.undo_stack ++ [E.compress f]) ∧
    (save_image_state E s).redo_stack = [] ∧
    (save_image_state E s).has_unsaved_changes = true ∧
    (save_image_state E s).current_image = s.current_image ∧
    (save_image_state E s).undo_stack.getLast? = some (E.compress f) := by
  simp only [save_image_state, hc]
  refine ⟨by simp, by simp, by simp, by simp, ?_⟩
  by_cases h : max_stack_size < s.undo_stack.length + 1
  · have hne : 1 ≤ s.undo_stack.length := by
      simp [max_stack_size] at h; omega
    simp [h, List.drop_append_of_le_length hne, List.getLast?_concat]
  · simp [h, List.getLast?_concat]

/-!  ## C4: baseline caching asymmetry -/

/-- C4: while a brightness (resp. contrast) baseline is cached the result of
`apply_brightness` (resp. `apply_contrast`) is a pure function of the cached
baseline and the clamped slider value, and composing two brightness (resp.
contrast) applications equals applying only the second one (no compounding,
as whole session states); whereas `apply_saturation` and `apply_hue`
recompute from the live current frame on every call, so a second application
acts on the already-adjusted output of the first (compounding). -/
theorem c4_baseline_asymmetry (Frame Snap : Type) (E : Ext Frame Snap)
    (v w : Int) (s : Session Frame Snap) :
    apply_brightness E w (apply_brightness E v s) = apply_brightness E w s ∧
    apply_contrast E w (apply_contrast E v s) = apply_contrast E w s ∧
    (∀ b, s.brightness_base = some b → s.current_image ≠ none →
      (apply_brightness E v s).current_image =
        some (E.brightOp (clamp v (-100) 100) b)) ∧
    (∀ b, s.contrast_base = some b → s.current_image ≠ none →
      (apply_contrast E v s).current_image =
        some (E.contrastOp (clamp v 0 200) b)) ∧
    (∀ c, s.current_image = some c →
      (apply_saturation E v s).current_image =
        some (E.satOp (clamp v 0 200) c) ∧
      (apply_saturation E w (apply_saturation E v s)).current_image =
        some (E.satOp (clamp w 0 200) (E.satOp (clamp v 0 200) c)) ∧
      (apply_hue E v s).current_image =
        some (E.hueOp (clamp v (-180) 180) c) ∧
      (apply_hue E w (apply_hue E v s)).current_image =
        some (E.hueOp (clamp w (-180) 180) (E.hueOp (clamp v (-180) 180) c))) := by
  refine ⟨?_, ?_, ?_, ?_, ?_⟩
  · cases h : s.current_image <;> simp [apply_brightness, h]
  · cases h : s.current_image <;> simp [apply_contrast, h]
  · intro b hb hc
    cases h : s.current_image with
    | none => exact absurd h hc
    | some c => simp [apply_brightness, h, hb]
  · intro b hb hc
    cases h : s.current_image with
    | none => exact absurd h hc
    | some c => simp [apply_contrast, h, hb]
  · intro c hc
    simp [apply_saturation, apply_hue, hc]

/-- Witness for C4 at a concrete session. -/
theorem c4_baseline_asymmetry_witness :
    let s := load_image (5 : Int) (initSession : Session Int Int)
    (apply_saturation extInt 150 (apply_saturation extInt 150 s)).current_image =
      some (extInt.satOp (clamp 150 0 200) (extInt.satOp (clamp 150 0 200) 5)) ∧
    apply_brightness extInt 60 (apply_brightness extInt 30 s) =
      apply_brightness extInt 60 s := by
  refine ⟨((c4_baseline_asymmetry Int Int extInt 150 150
    (load_image 5 initSession)).2.2.2.2 5 rfl).2.1, ?_⟩
  exact (c4_baseline_asymmetry Int Int extInt 30 60 (load_image 5 initSession)).1

/-!  ## C8: hue wrap-around -/

/-- C8 counterexample: the claim predicts that `apply_hue` with offset `+190`
sends a base hue of `170` to `0` (wrap of `170 + 190` modulo the hue
period); the code first clamps the offset to `[-180, 180]`, so the hue-pixel
action `hueShift` yields `170`, not `0`. -/
theorem c8_counterexample :
    hueShift 190 170 = 170 ∧ hueShift 190 170 ≠ 0 := by decide

/-- C8 (amended): the hue adjustment is an additive offset on the hue
channel taken modulo 180 after the offset parameter is clamped to
`[-180, 180]`; the wrapped value always lies in the hue range `[0, 180)`
(circular wrap: the hue channel itself never saturates and never errors),
and for an in-range offset the clamp is the identity, giving a pure modular
addition. -/
theorem c8_amended (value h : Int) (h0 : 0 ≤ h) (h1 : h < 180) :
    hueShift value h = (h + clamp value (-180) 180) % 180 ∧
    0 ≤ hueShift value h ∧ hueShift value h < 180 ∧
    (-180 ≤ value → value ≤ 180 → hueShift value h = (h + value) % 180) := by
  refine ⟨rfl, ?_, ?_, ?_⟩
  · exact Int.emod_nonneg _ (by norm_num)
  · exact Int.emod_lt_of_pos _ (by norm_num)
  · intro hv1 hv2
    have hcl : clamp value (-180) 180 = value := by
      simp only [clamp]; omega
    simp [hueShift, hueChannelShift, hcl]

/-- Witness for C8 (amended) at offset `+10` on base hue `170`, which wraps
to `0`. -/
theorem c8_amended_witness :
    (0 : Int) ≤ 170 ∧ (170 : Int) < 180 ∧ hueShift 10 170 = (170 + 10) % 180 ∧
    hueShift 10 170 = 0 := by
  refine ⟨by decide, by decide, ?_, by decide⟩
  exact (c8_amended 10 170 (by decide) (by decide)).2.2.2 (by decide) (by decide)

/-!  ## C9: brightness pixel arithmetic -/

/-- C9 counterexample: the claim predicts `min(255, max(0, sample + v))`;
at sample `0` with `v = -100` the code (`cv2.convertScaleAbs`, which takes
an absolute value before saturating) produces `100`, not the claimed `0` —
shown on the session operation itself with the faithful brightness
collaborator. -/
theorem c9_counterexample :
    let s := load_image ([0] : List Int) (initSession : Session (List Int) (List Int))
    (apply_brightness extSample (-100) s).current_image = some [100] ∧
    (apply_brightness extSample (-100) s).current_image ≠
      some ([0].map fun x => min 255 (max 0 (x + (-100)))) := by decide

/-- C9 (amended): for a cached-or-fresh baseline frame and `v ∈ [-100, 100]`,
`apply_brightness` maps every channel sample `x` of the baseline to
`min 255 |x + v|`; when `x + v ≥ 0` (in particular whenever `v ≥ 0`) this
equals the claimed `min 255 (max 0 (x + v))`, but when `x + v < 0` the
result is the reflected value `-(x + v)` rather than `0`. -/
theorem c9_amended (Snap : Type) (E : Ext (List Int) Snap)
    (hE : E.brightOp = brightFrame) (v : Int) (hv1 : -100 ≤ v) (hv2 : v ≤ 100)
    (s : Session (List Int) Snap) (f : List Int) (hc : s.current_image = some f) :
    (apply_brightness E v s).current_image =
      some ((s.brightness_base.getD f).map (convertScaleAbs1 v)) ∧
    ∀ x : Int, 0 ≤ x →
      (0 ≤ x + v → convertScaleAbs1 v x = min 255 (max 0 (x + v))) ∧
      (x + v < 0 → convertScaleAbs1 v x = -(x + v)) := by
  constructor
  · have hcl : clamp v (-100) 100 = v := by simp only [clamp]; omega
    simp [apply_brightness, hc, hcl, hE, brightFrame]
  · intro x _
    constructor <;> intro hxv <;> simp only [convertScaleAbs1] <;> omega

/-- Witness for C9 (amended) at `v = -100` on the loaded frame `[0]`. -/
theorem c9_amended_witness :
    extSample.brightOp = brightFrame ∧ (-100 : Int) ≤ -100 ∧ (-100 : Int) ≤ 100 ∧
    (apply_brightness extSample (-100)
        (load_image ([0] : List Int) initSession)).current_image =
      some (((load_image ([0] : List Int)
        (initSession : Session (List Int) (List Int))).brightness_base.getD
          [0]).map (convertScaleAbs1 (-100))) ∧
    convertScaleAbs1 (-100) 0 = -(0 + (-100)) := by
  refine ⟨rfl, by decide, by decide, ?_, ?_⟩
  · exact (c9_amended (List Int) extSample rfl (-100) (by decide) (by decide)
      (load_image [0] initSession) [0] rfl).1
  · exact ((c9_amended (List Int) extSample rfl (-100) (by decide) (by decide)
      (load_image [0] initSession) [0] rfl).2 0 (by decide)).2 (by decide)

/-!  ## C1: save-before-mutate discipline -/

/-- C1 counterexample: the claim says every mutating operation — including
the parameterized adjustments — first pushes a snapshot, clears the redo
stack and marks the session dirty.  On a freshly loaded image,
`apply_brightness 50` changes the frame yet pushes nothing onto the undo
stack and leaves the session clean. -/
theorem c1_counterexample :
    let s := load_image ([0] : List Int) (initSession : Session (List Int) (List Int))
    (apply_brightness extSample 50 s).current_image = some [50] ∧
    (apply_brightness extSample 50 s).current_image ≠ s.current_image ∧
    (apply_brightness extSample 50 s).undo_stack = [] ∧
    (apply_brightness extSample 50 s).has_unsaved_changes = false := by decide

/-- C1 (amended): every filter/transform operation and the reset-to-original
operation first push a compressed snapshot of the pre-mutation frame onto
the undo stack (with oldest-entry eviction), clear the redo stack and mark
the session dirty, before the frame is changed; the parameterized
adjustments brightness/contrast/saturation/hue, however, mutate the current
frame without recording history: they push no snapshot, leave the redo
stack as it was, and do not mark the session dirty. -/
theorem c1_amended (Frame Snap : Type) (E : Ext Frame Snap)
    (s : Session Frame Snap) :
    (∀ (fn : Frame → Frame) (f : Frame), s.current_image = some f →
      (applyFilter E fn s).current_image = some (fn f) ∧
      (applyFilter E fn s).undo_stack = (save_image_state E s).undo_stack ∧
      (applyFilter E fn s).undo_stack.getLast? = some (E.compress f) ∧
      (applyFilter E fn s).redo_stack = [] ∧
      (applyFilter E fn s).has_unsaved_changes = true) ∧
    (∀ (f g : Frame), s.current_image = some f → s.original_image = some g →
      (reset_image E s).current_image = some g ∧
      (reset_image E s).undo_stack = (save_image_state E s).undo_stack ∧
      (reset_image E s).undo_stack.getLast? = some (E.compress f) ∧
      (reset_image E s).redo_stack = [] ∧
      (reset_image E s).has_unsaved_changes = true) ∧
    (∀ v : Int,
      (apply_brightness E v s).undo_stack = s.undo_stack ∧
      (apply_brightness E v s).redo_stack = s.redo_stack ∧
      (apply_brightness E v s).has_unsaved_changes = s.has_unsaved_changes ∧
      (apply_contrast E v s).undo_stack = s.undo_stack ∧
      (apply_contrast E v s).redo_stack = s.redo_stack ∧
      (apply_contrast E v s).has_unsaved_changes = s.has_unsaved_changes ∧
      (apply_saturation E v s).undo_stack = s.undo_stack ∧
      (apply_saturation E v s).redo_stack = s.redo_stack ∧
      (apply_saturation E v s).has_unsaved_changes = s.has_unsaved_changes ∧
      (apply_hue E v s).undo_stack = s.undo_stack ∧
      (apply_hue E v s).redo_stack = s.redo_stack ∧
      (apply_hue E v s).has_unsaved_changes = s.has_unsaved_changes) := by
  refine ⟨?_, ?_, ?_⟩
  · intro fn f hc
    obtain ⟨h1, h2, h3, h4, h5⟩ := save_image_state_spec E s f hc
    simp only [applyFilter, hc]
    exact ⟨by simp, by simp, h5, h2, h3⟩
  · intro f g hc ho
    obtain ⟨h1, h2, h3, h4, h5⟩ := save_image_state_spec E s f hc
    simp only [reset_image, ho]
    exact ⟨by simp, by simp, h5, h2, h3⟩
  · intro v
    obtain ⟨hb, hco, hs, hh⟩ := adjustments_leave_history E v s
    exact ⟨hb.1, hb.2.1, hb.2.2, hco.1, hco.2.1, hco.2.2,
      hs.1, hs.2.1, hs.2.2, hh.1, hh.2.1, hh.2.2⟩

/-- Witness for C1 (amended) on a concrete session. -/
theorem c1_amended_witness :
    let s := load_image (7 : Int) (initSession : Session Int Int)
    ((applyFilter extInt (fun x => x + 1) s).current_image = some 8 ∧
      (applyFilter extInt (fun x => x + 1) s).undo_stack.getLast? = some 7 ∧
      (applyFilter extInt (fun x => x + 1) s).has_unsaved_changes = true) ∧
    (apply_hue extInt 30 s).undo_stack = s.undo_stack := by
  intro s
  obtain ⟨hfil, hres, hadj⟩ := c1_amended Int Int extInt s
  obtain ⟨a1, a2, a3, a4, a5⟩ := hfil (fun x => x + 1) 7 rfl
  exact ⟨⟨a1, a3, a5⟩, (hadj 30).2.2.2.2.2.2.2.2.2.1⟩

/-!  ## C7: clearing of the adjustment baselines -/

/-- C7: the claim (and the spec) say the cached brightness/contrast
baselines are cleared both by reset-all and by loading a new image.
`reset_adjustments` does clear them, but `_load_image_from_path` does not:
after loading image `[100]`, caching a brightness baseline, and loading a
new image `[200]`, the stale baseline `[100]` survives, and the next
brightness adjustment recomputes the frame from the old image's pixels
(`[120]`) instead of from the newly loaded frame (`[220]`). -/
theorem c7_stale_baseline_eval :
    (apply_brightness extSample 10 (load_image ([100] : List Int)
      (initSession : Session (List Int) (List Int)))).brightness_base =
        some [100] ∧
    (reset_adjustments extSample (apply_brightness extSample 10
      (load_image ([100] : List Int) initSession))).brightness_base = none ∧
    (reset_adjustments extSample (apply_brightness extSample 10
      (load_image ([100] : List Int) initSession))).contrast_base = none ∧
    (load_image ([200] : List Int) (apply_brightness extSample 10
      (load_image ([100] : List Int) initSession))).brightness_base =
        some [100] ∧
    (apply_brightness extSample 20 (load_image ([200] : List Int)
      (apply_brightness extSample 10 (load_image ([100] : List Int)
        initSession)))).current_image = some [120] ∧
    (apply_brightness extSample 20 (load_image ([200] : List Int)
      (apply_brightness extSample 10 (load_image ([100] : List Int)
        initSession)))).current_image ≠ some [220] := by decide

/-!  ## C10: grayscale on an already single-channel frame -/

/-- C10: applying the grayscale operation to a single-channel frame leaves
the pixels unchanged (the `ndim == 3` conversion branch is skipped), yet
still pushes a snapshot of that frame onto the undo stack, clears the redo
stack, and marks the session dirty — a pixel-level no-op consumes one undo
slot whenever the stack is below its bound. -/
theorem c10_grayscale_noop_records (Snap : Type) (E : Ext GFrame Snap)
    (cvt : List (Nat × Nat × Nat) → List Nat) (s : Session GFrame Snap)
    (p : List Nat) (hc : s.current_image = some (GFrame.gray p)) :
    (apply_grayscale E cvt s).current_image = some (GFrame.gray p) ∧
    (apply_grayscale E cvt s).undo_stack.getLast? =
      some (E.compress (GFrame.gray p)) ∧
    (apply_grayscale E cvt s).redo_stack = [] ∧
    (apply_grayscale E cvt s).has_unsaved_changes = true ∧
    (s.undo_stack.length < max_stack_size →
      (apply_grayscale E cvt s).undo_stack.length = s.undo_stack.length + 1) := by
  obtain ⟨h1, h2, h3, h4, h5⟩ := save_image_state_spec E s _ hc
  simp only [apply_grayscale, applyFilter, hc]
  refine ⟨rfl, h5, h2, h3, ?_⟩
  intro hlen
  have hnot : ¬ max_stack_size < s.undo_stack.length + 1 := by omega
  simp [h1, hnot]

/-- Witness for C10 on a concrete single-channel frame. -/
theorem c10_grayscale_noop_records_witness :
    let s := load_image (GFrame.gray [3, 4]) (initSession : Session GFrame GFrame)
    (apply_grayscale extG (fun _ => []) s).current_image =
      some (GFrame.gray [3, 4]) ∧
    (apply_grayscale extG (fun _ => []) s).has_unsaved_changes = true ∧
    (apply_grayscale extG (fun _ => []) s).undo_stack.length =
      (load_image (GFrame.gray [3, 4])
        (initSession : Session GFrame GFrame)).undo_stack.length + 1 := by
  intro s
  obtain ⟨h1, h2, h3, h4, h5⟩ :=
    c10_grayscale_noop_records GFrame extG (fun _ => []) s [3, 4] rfl
  exact ⟨h1, h4, h5 (by decide)⟩

/-!  ## C5 and C6: the command interpreter -/

/-- Unfolding equation for `fuzzyStep`. -/
theorem fuzzyStep_eq (cmd : List Char) (best : Option String × Nat) (key : String) :
    fuzzyStep cmd best key =
      if 75 < fuzzScore cmd key.toList ∧ best.2 < fuzzScore cmd key.toList
      then (some key, fuzzScore cmd key.toList) else best := rfl

/-- Characterization of the fuzzy-phase fold: either no keyword scores above
75 and the accumulator stays `(none, 0)`, or the result is the first keyword
(in enumeration order) attaining the maximum score, that score exceeding
75 — every earlier keyword scores strictly lower, every later one no
higher. -/
theorem fuzzyFold_spec (cmd : List Char) (l : List String) :
    (l.foldl (fuzzyStep cmd) (none, 0) = (none, 0) ∧
      ∀ k ∈ l, fuzzScore cmd k.toList ≤ 75) ∨
    (∃ key pre post, l = pre ++ key :: post ∧
      l.foldl (fuzzyStep cmd) (none, 0) =
        (some key, fuzzScore cmd key.toList) ∧
      75 < fuzzScore cmd key.toList ∧
      (∀ k ∈ pre, fuzzScore cmd k.toList < fuzzScore cmd key.toList) ∧
      (∀ k ∈ post, fuzzScore cmd k.toList ≤ fuzzScore cmd key.toList)) := by
  induction l using List.reverseRecOn with
  | nil => exact Or.inl ⟨rfl, by simp⟩
  | append_singleton l k ih =>
    rw [List.foldl_append]
    simp only [List.foldl_cons, List.foldl_nil]
    rcases ih with ⟨hacc, hall⟩ | ⟨key, pre, post, hsplit, hacc, hgt, hpre, hpost⟩
    · rw [hacc]
      by_cases h75 : 75 < fuzzScore cmd k.toList
      · refine Or.inr ⟨k, l, [], by simp, ?_, h75, ?_, by simp⟩
        · rw [fuzzyStep_eq,
            if_pos ⟨h75, (by omega : 0 < fuzzScore cmd k.toList)⟩]
        · intro k' hk'
          exact lt_of_le_of_lt (hall k' hk') h75
      · have hno : ¬(75 < fuzzScore cmd k.toList ∧
            0 < fuzzScore cmd k.toList) := fun hc => h75 hc.1
        refine Or.inl ⟨?_, ?_⟩
        · rw [fuzzyStep_eq, if_neg hno]
        · intro k' hk'
          rcases List.mem_append.1 hk' with h | h
          · exact hall k' h
          · rcases List.mem_singleton.1 h with rfl
            omega
    · rw [hacc]
      by_cases hcond : 75 < fuzzScore cmd k.toList ∧
          fuzzScore cmd key.toList < fuzzScore cmd k.toList
      · refine Or.inr ⟨k, l, [], by simp, ?_, hcond.1, ?_, by simp⟩
        · rw [fuzzyStep_eq, if_pos hcond]
        · intro k' hk'
          rw [hsplit] at hk'
          rcases List.mem_append.1 hk' with h | h
          · exact lt_trans (hpre k' h) hcond.2
          · rcases List.mem_cons.1 h with rfl | h
            · exact hcond.2
            · exact lt_of_le_of_lt (hpost k' h) hcond.2
      · refine Or.inr ⟨key, pre, post ++ [k], ?_, ?_, hgt, hpre, ?_⟩
        · rw [hsplit]; simp
        · rw [fuzzyStep_eq, if_neg hcond]
        · intro k' hk'
          rcases List.mem_append.1 hk' with h | h
          · exact hpost k' h
          · rcases List.mem_singleton.1 h with rfl
            rcases not_and_or.1 hcond with h | h <;> omega

/-- C5: the interpreter's fuzzy phase runs first: a keyword accepted by the
fuzzy phase immediately resolves the utterance; the accepted keyword always
scores above 75 and is the first keyword of the enumeration attaining the
maximum score (earlier keywords score strictly lower, later ones no higher);
if no keyword clears the 75 threshold the fuzzy phase yields nothing (so
control falls through to parameterized extraction); and
`interpret "grey scale"` resolves to the grayscale action. -/
theorem c5_fuzzy_phase :
    (∀ (command key : String),
      (fuzzyBest (normalize command.toList)).1 = some key →
      interpret command = some (Action.cmd key)) ∧
    (∀ (cmd : List Char) (key : String), (fuzzyBest cmd).1 = some key →
      75 < fuzzScore cmd key.toList ∧
      ∃ pre post, commandKeys = pre ++ key :: post ∧
        (∀ k ∈ pre, fuzzScore cmd k.toList < fuzzScore cmd key.toList) ∧
        (∀ k ∈ post, fuzzScore cmd k.toList ≤ fuzzScore cmd key.toList)) ∧
    (∀ cmd : List Char, (∀ k ∈ commandKeys, fuzzScore cmd k.toList ≤ 75) →
      (fuzzyBest cmd).1 = none) ∧
    interpret "grey scale" = some (Action.cmd "grayscale") := by
  refine ⟨?_, ?_, ?_, by decide⟩
  · intro command key h
    simp only [interpret]
    rw [h]
  · intro cmd key h
    rcases fuzzyFold_spec cmd commandKeys with ⟨hacc, _⟩ |
      ⟨key', pre, post, hsplit, hacc, hgt, hpre, hpost⟩
    · rw [fuzzyBest, hacc] at h
      exact absurd h (by simp)
    · rw [fuzzyBest, hacc] at h
      simp only [Option.some.injEq] at h
      subst h
      exact ⟨hgt, pre, post, hsplit, hpre, hpost⟩
  · intro cmd hall
    rcases fuzzyFold_spec cmd commandKeys with ⟨hacc, _⟩ |
      ⟨key, pre, post, hsplit, hacc, hgt, _, _⟩
    · rw [fuzzyBest, hacc]
    · have hmem : key ∈ commandKeys := by
        rw [hsplit]; simp
      have := hall key hmem
      omega

/-- Witness for C5: the fuzzy phase resolves "grey scale" to grayscale
(score 84 > 75) and rejects "xyzzy" (all scores ≤ 75). -/
theorem c5_fuzzy_phase_witness :
    interpret "grey scale" = some (Action.cmd "grayscale") ∧
    (fuzzyBest "xyzzy".toList).1 = none ∧
    75 < fuzzScore (normalize "grey scale".toList) "grayscale".toList := by
  refine ⟨c5_fuzzy_phase.1 "grey scale" "grayscale" (by decide),
    c5_fuzzy_phase.2.2.1 "xyzzy".toList (by decide), ?_⟩
  exact (c5_fuzzy_phase.2.1 (normalize "grey scale".toList) "grayscale"
    (by decide)).1

/-- C6: when the fuzzy phase fails, the parameterized patterns are tried in
the fixed priority order brightness, contrast, saturation, hue; the first
matching pattern determines the action and its extracted integer — later
patterns are irrelevant once an earlier one matches; and
`interpret "brightness by 50"` extracts 50 without matching any
zero-argument keyword first. -/
theorem c6_param_extraction :
    (∀ command : String,
      (fuzzyBest (normalize command.toList)).1 = none →
      (∀ n, re_brightness (normalize command.toList) = some n →
        interpret command = some (Action.brightness n)) ∧
      (re_brightness (normalize command.toList) = none →
        ∀ n, re_contrast (normalize command.toList) = some n →
          interpret command = some (Action.contrast n)) ∧
      (re_brightness (normalize command.toList) = none →
        re_contrast (normalize command.toList) = none →
        ∀ n, re_saturation (normalize command.toList) = some n →
          interpret command = some (Action.saturation n)) ∧
      (re_brightness (normalize command.toList) = none →
        re_contrast (normalize command.toList) = none →
        re_saturation (normalize command.toList) = none →
        ∀ n, re_hue (normalize command.toList) = some n →
          interpret command = some (Action.hue n))) ∧
    interpret "brightness by 50" = some (Action.brightness 50) ∧
    (fuzzyBest (normalize "brightness by 50".toList)).1 = none ∧
    re_brightness (normalize "brightness by 50".toList) = some 50 := by
  refine ⟨?_, by decide, by decide, by decide⟩
  intro command hfz
  refine ⟨?_, ?_, ?_, ?_⟩
  · intro n hb
    simp only [interpret]
    rw [hfz, hb]
  · intro hb n hco
    simp only [interpret]
    rw [hfz, hb, hco]
  · intro hb hco n hs
    simp only [interpret]
    rw [hfz, hb, hco, hs]
  · intro hb hco hs n hh
    simp only [interpret]
    rw [hfz, hb, hco, hs, hh]

/-- Witness for C6 on the concrete utterance "brightness by 50". -/
theorem c6_param_extraction_witness :
    interpret "brightness by 50" = some (Action.brightness 50) ∧
    interpret "contrast by -20" = some (Action.contrast (-20)) := by
  constructor
  · exact ((c6_param_extraction.1 "brightness by 50" (by decide)).1 50 (by decide))
  · exact ((c6_param_extraction.1 "contrast by -20" (by decide)).2.1
      (by decide) (-20) (by decide))

/-!  ## C3: the 20-entry history bound -/

/-- The slider setters never touch the history stacks or the dirty flag. -/
theorem sliders_leave_history (E : Ext Frame Snap) (v : Int)
    (s : Session Frame Snap) :
    ((setBrightnessSlider E v s).undo_stack = s.undo_stack ∧
      (setBrightnessSlider E v s).redo_stack = s.redo_stack ∧
      (setBrightnessSlider E v s).has_unsaved_changes = s.has_unsaved_changes) ∧
    ((setContrastSlider E v s).undo_stack = s.undo_stack ∧
      (setContrastSlider E v s).redo_stack = s.redo_stack ∧
      (setContrastSlider E v s).has_unsaved_changes = s.has_unsaved_changes) ∧
    ((setSaturationSlider E v s).undo_stack = s.undo_stack ∧
      (setSaturationSlider E v s).redo_stack = s.redo_stack ∧
      (setSaturationSlider E v s).has_unsaved_changes = s.has_unsaved_changes) ∧
    ((setHueSlider E v s).undo_stack = s.undo_stack ∧
      (setHueSlider E v s).redo_stack = s.redo_stack ∧
      (setHueSlider E v s).has_unsaved_changes = s.has_unsaved_changes) := by
  refine ⟨?_, ?_, ?_, ?_⟩
  · by_cases hv : clamp v (-100) 100 = s.brightness_val
    · simp [setBrightnessSlider, hv]
    · have h := (adjustments_leave_history E (clamp v (-100) 100)
        { s with brightness_val := clamp v (-100) 100 }).1
      simp only [setBrightnessSlider, if_neg hv]
      exact ⟨h.1, h.2.1, h.2.2⟩
  · by_cases hv : clamp v 0 200 = s.contrast_val
    · simp [setContrastSlider, hv]
    · have h := (adjustments_leave_history E (clamp v 0 200)
        { s with contrast_val := clamp v 0 200 }).2.1
      simp only [setContrastSlider, if_neg hv]
      exact ⟨h.1, h.2.1, h.2.2⟩
  · by_cases hv : clamp v 0 200 = s.saturation_val
    · simp [setSaturationSlider, hv]
    · have h := (adjustments_leave_history E (clamp v 0 200)
        { s with saturation_val := clamp v 0 200 }).2.2.1
      simp only [setSaturationSlider, if_neg hv]
      exact ⟨h.1, h.2.1, h.2.2⟩
  · by_cases hv : clamp v (-180) 180 = s.hue_val
    · simp [setHueSlider, hv]
    · have h := (adjustments_leave_history E (clamp v (-180) 180)
        { s with hue_val := clamp v (-180) 180 }).2.2.2
      simp only [setHueSlider, if_neg hv]
      exact ⟨h.1, h.2.1, h.2.2⟩

/-- `reset_adjustments` clears both baselines and never touches the history
stacks or the dirty flag. -/
theorem reset_adjustments_spec (E : Ext Frame Snap) (s : Session Frame Snap) :
    (reset_adjustments E s).undo_stack = s.undo_stack ∧
    (reset_adjustments E s).redo_stack = s.redo_stack ∧
    (reset_adjustments E s).has_unsaved_changes = s.has_unsaved_changes ∧
    (reset_adjustments E s).brightness_base = none ∧
    (reset_adjustments E s).contrast_base = none := by
  have hb := sliders_leave_history E (0 : Int) s
  have hc := sliders_leave_history E (100 : Int) (setBrightnessSlider E 0 s)
  have hs := sliders_leave_history E (100 : Int)
    (setContrastSlider E 100 (setBrightnessSlider E 0 s))
  have hh := sliders_leave_history E (0 : Int)
    (setSaturationSlider E 100 (setContrastSlider E 100 (setBrightnessSlider E 0 s)))
  refine ⟨?_, ?_, ?_, by simp [reset_adjustments], by simp [reset_adjustments]⟩
  · simp only [reset_adjustments]
    rw [hh.2.2.2.1, hs.2.2.1.1, hc.2.1.1, hb.1.1]
  · simp only [reset_adjustments]
    rw [hh.2.2.2.2.1, hs.2.2.1.2.1, hc.2.1.2.1, hb.1.2.1]
  · simp only [reset_adjustments]
    rw [hh.2.2.2.2.2, hs.2.2.1.2.2, hc.2.1.2.2, hb.1.2.2]

/-- `save_image_state` preserves the combined-stacks bound. -/
theorem save_inv (E : Ext Frame Snap) (s : Session Frame Snap)
    (h : s.undo_stack.length + s.redo_stack.length ≤ max_stack_size) :
    (save_image_state E s).undo_stack.length +
      (save_image_state E s).redo_stack.length ≤ max_stack_size := by
  cases hc : s.current_image with
  | none => simpa [save_image_state, hc] using h
  | some c =>
    simp only [save_image_state, hc]
    by_cases hlen : max_stack_size < (s.undo_stack ++ [E.compress c]).length
    · rw [if_pos hlen]
      simp only [max_stack_size, List.length_append, List.length_drop,
        List.length_singleton, List.length_nil] at *
      omega
    · rw [if_neg hlen]
      simp only [max_stack_size, List.length_append, List.length_singleton,
        List.length_nil] at *
      omega

/-- Every single operation preserves the invariant
`|undo| + |redo| ≤ max_stack_size`. -/
theorem stepOp_inv (E : Ext Frame Snap) (op : Op Frame) (s : Session Frame Snap)
    (h : s.undo_stack.length + s.redo_stack.length ≤ max_stack_size) :
    (stepOp E op s).undo_stack.length + (stepOp E op s).redo_stack.length ≤
      max_stack_size := by
  cases op with
  | load f => simp [stepOp, load_image]
  | filter fn =>
    cases hc : s.current_image with
    | none => simpa [stepOp, applyFilter, hc] using h
    | some c => simpa only [stepOp, applyFilter, hc] using save_inv E s h
  | resetImage =>
    cases ho : s.original_image with
    | none => simpa [stepOp, reset_image, ho] using h
    | some g => simpa only [stepOp, reset_image, ho] using save_inv E s h
  | undo =>
    rcases h1 : s.undo_stack.getLast? with _ | top
    · simpa [stepOp, undoOp, h1] using h
    · rcases h2 : s.current_image with _ | cur
      · simpa [stepOp, undoOp, h1, h2] using h
      · have hne : s.undo_stack ≠ [] := by
          intro heq; rw [heq] at h1; simp at h1
        have hpos : 0 < s.undo_stack.length := List.length_pos.2 hne
        simp only [stepOp, undoOp, h1, h2]
        simp only [max_stack_size] at h ⊢
        simp [List.length_dropLast]
        omega
  | redo =>
    rcases h1 : s.redo_stack.getLast? with _ | top
    · simpa [stepOp, redoOp, h1] using h
    · rcases h2 : s.current_image with _ | cur
      · simpa [stepOp, redoOp, h1, h2] using h
      · have hne : s.redo_stack ≠ [] := by
          intro heq; rw [heq] at h1; simp at h1
        have hpos : 0 < s.redo_stack.length := List.length_pos.2 hne
        simp only [stepOp, redoOp, h1, h2]
        simp only [max_stack_size] at h ⊢
        simp [List.length_dropLast]
        omega
  | brightness v =>
    have hl := (adjustments_leave_history E v s).1
    simp only [stepOp]
    rw [hl.1, hl.2.1]; exact h
  | contrast v =>
    have hl := (adjustments_leave_history E v s).2.1
    simp only [stepOp]
    rw [hl.1, hl.2.1]; exact h
  | saturation v =>
    have hl := (adjustments_leave_history E v s).2.2.1
    simp only [stepOp]
    rw [hl.1, hl.2.1]; exact h
  | hue v =>
    have hl := (adjustments_leave_history E v s).2.2.2
    simp only [stepOp]
    rw [hl.1, hl.2.1]; exact h
  | setBrightness v =>
    have hl := (sliders_leave_history E v s).1
    simp only [stepOp]
    rw [hl.1, hl.2.1]; exact h
  | setContrast v =>
    have hl := (sliders_leave_history E v s).2.1
    simp only [stepOp]
    rw [hl.1, hl.2.1]; exact h
  | setSaturation v =>
    have hl := (sliders_leave_history E v s).2.2.1
    simp only [stepOp]
    rw [hl.1, hl.2.1]; exact h
  | setHue v =>
    have hl := (sliders_leave_history E v s).2.2.2
    simp only [stepOp]
    rw [hl.1, hl.2.1]; exact h
  | resetAdjustments =>
    have hl := reset_adjustments_spec E s
    simp only [stepOp]
    rw [hl.1, hl.2.1]; exact h

/-- The invariant is preserved by any run of operations. -/
theorem runOps_inv (E : Ext Frame Snap) (ops : List (Op Frame))
    (s : Session Frame Snap)
    (h : s.undo_stack.length + s.redo_stack.length ≤ max_stack_size) :
    (runOps E ops s).undo_stack.length + (runOps E ops s).redo_stack.length ≤
      max_stack_size := by
  induction ops generalizing s with
  | nil => exact h
  | cons op ops ih => exact ih (stepOp E op s) (stepOp_inv E op s h)

/-- C3: in every session state reachable by any interleaving of loads,
filters/transforms, reset-to-original, undos, redos, adjustments and slider
moves, the undo stack holds at most 20 snapshots (in fact
`|undo| + |redo| ≤ 20`, which is why redo's unchecked push onto the undo
stack can never overflow it); and when a push would make the undo stack 21
entries long, `save_image_state` evicts exactly the oldest (bottom) entry,
keeping the newly pushed snapshot on top. -/
theorem c3_history_bound :
    (∀ (Frame Snap : Type) (E : Ext Frame Snap) (ops : List (Op Frame)),
      (runOps E ops (initSession : Session Frame Snap)).undo_stack.length ≤
        max_stack_size) ∧
    (∀ (Frame Snap : Type) (E : Ext Frame Snap) (s : Session Frame Snap)
        (f : Frame), s.undo_stack.length = max_stack_size →
      s.current_image = some f →
      (save_image_state E s).undo_stack =
        s.undo_stack.drop 1 ++ [E.compress f]) := by
  constructor
  · intro Frame Snap E ops
    have h := runOps_inv E ops (initSession : Session Frame Snap)
      (by simp [initSession])
    omega
  · intro Frame Snap E s f hlen hc
    simp only [save_image_state, hc]
    have hgt : max_stack_size < (s.undo_stack ++ [E.compress f]).length := by
      simp [hlen]
    rw [if_pos hgt]
    have h1 : 1 ≤ s.undo_stack.length := by
      simp only [max_stack_size] at hlen; omega
    exact List.drop_append_of_le_length h1

/-- Witness for C3: a concrete run stays within the bound, and a full
20-entry stack evicts its bottom entry on the next push. -/
theorem c3_history_bound_witness :
    (runOps extInt [Op.load 1, Op.filter (fun x => x + 1), Op.undo]
      (initSession : Session Int Int)).undo_stack.length ≤ max_stack_size ∧
    (save_image_state extInt
      { (initSession : Session Int Int) with
          undo_stack := List.replicate 20 0, current_image := some 5 }).undo_stack
      = (List.replicate 20 (0 : Int)).drop 1 ++ [5] := by
  constructor
  · exact c3_history_bound.1 Int Int extInt
      [Op.load 1, Op.filter (fun x => x + 1), Op.undo]
  · exact c3_history_bound.2 Int Int extInt _ 5 (by decide) rfl

/-!  ## C2: undo N times then redo N times -/

/-- `headD` after `drop` is `getD`. -/
theorem headD_drop {α : Type} (l : List α) (m : Nat) (d : α) :
    (l.drop m).headD d = l.getD m d := by
  rw [List.headD_eq_head?_getD, List.head?_drop, List.getD_eq_getElem?_getD]

/-- `getD` below the last index is unaffected by `dropLast`. -/
theorem getD_dropLast {α : Type} (l : List α) (i : Nat) (d : α)
    (h : i + 1 < l.length) : l.dropLast.getD i d = l.getD i d := by
  rw [List.dropLast_eq_take, List.getD_eq_getElem?_getD,
    List.getD_eq_getElem?_getD, List.getElem?_take_of_lt (by omega)]

/-- `getD` of a reversed list. -/
theorem getD_reverse {α : Type} (l : List α) (i : Nat) (d : α)
    (h : i < l.length) : l.reverse.getD i d = l.getD (l.length - 1 - i) d := by
  rw [List.getD_eq_getElem?_getD, List.getD_eq_getElem?_getD,
    List.getElem?_reverse h]

theorem length_histFrames (f0 : Frame) (gs : List (Frame → Frame)) :
    (histFrames f0 gs).length = gs.length := by
  induction gs generalizing f0 with
  | nil => rfl
  | cons g gt ih => simp [histFrames, ih]

theorem frameAt_cons (f0 : Frame) (g : Frame → Frame)
    (gs : List (Frame → Frame)) : frameAt f0 (g :: gs) = frameAt (g f0) gs := rfl

/-- The `j`-th recorded frame is the fold of the first `j` mutations. -/
theorem getD_histFrames (gs : List (Frame → Frame)) (f0 d : Frame) (j : Nat)
    (h : j < gs.length) :
    (histFrames f0 gs).getD j d = frameAt f0 (gs.take j) := by
  induction gs generalizing f0 j with
  | nil => simp at h
  | cons g gt ih =>
    cases j with
    | zero => simp [histFrames, frameAt]
    | succ j =>
      simp only [histFrames, List.getD_cons_succ, List.take_succ_cons,
        frameAt_cons]
      exact ih (g f0) j (by simpa using h)

/-- A stack of fresh compressions tracks its own frames. -/
theorem tracks_map (E : Ext Frame Snap) (near : Frame → Frame → Prop)
    (hrefl : ∀ f, near f f)
    (hpres : ∀ a b, near a b → near (E.decompress (E.compress a)) b)
    (l : List Frame) : Tracks near E (l.map E.compress) l := by
  rw [Tracks, List.forall₂_map_left_iff]
  exact List.forall₂_same.2 fun f _ => hpres f f (hrefl f)

/-- Re-attaching the bottom of a consumed stack to the gained list. -/
theorem dropLast_cons_reverse {α : Type} (tc : α) (l : List α) :
    (tc :: l.reverse).dropLast ++ [l.headD tc] = tc :: l.reverse := by
  cases l with
  | nil => simp
  | cons x xs =>
    rw [show tc :: (x :: xs).reverse = (tc :: xs.reverse) ++ [x] by simp,
      List.dropLast_concat]
    simp

/-- Running `undoOp` as many times as a tracked suffix of the undo stack is
long: the suffix is consumed from the top, the final current frame is within
tolerance of the bottom frame of the suffix (or of the starting frame when
the suffix is empty), and the redo stack gains snapshots tracking the
restored frames from most recent down to (but excluding) that bottom
frame. -/
theorem undo_run (E : Ext Frame Snap) (near : Frame → Frame → Prop)
    (hpres : ∀ a b, near a b → near (E.decompress (E.compress a)) b) :
    ∀ (l₂ : List Frame) (us₂ : List Snap), Tracks near E us₂ l₂ →
    ∀ (s : Session Frame Snap) (us₁ : List Snap) (c tc : Frame),
      near c tc → s.current_image = some c → s.undo_stack = us₁ ++ us₂ →
    ∃ c2 ex, (undoOp E)^[l₂.length] s =
        { s with current_image := some c2, undo_stack := us₁,
                 redo_stack := s.redo_stack ++ ex } ∧
      near c2 (l₂.headD tc) ∧
      Tracks near E ex ((tc :: l₂.reverse).dropLast) := by
  intro l₂
  induction l₂ with
  | nil =>
    intro us₂ hT s us₁ c tc hnear hc hu
    cases hT
    refine ⟨c, [], ?_, by simpa using hnear, by simp [Tracks]⟩
    simp only [List.length_nil, Function.iterate_zero, id]
    rw [List.append_nil] at hu
    cases s
    simp_all
  | cons a l₂t ih =>
    intro us₂ hT s us₁ c tc hnear hc hu
    rcases List.forall₂_cons_right_iff.1 hT with ⟨ua, ust, hua, hust, rfl⟩
    obtain ⟨c2, ex, heq, hnear2, hTr⟩ :=
      ih ust hust s (us₁ ++ [ua]) c tc hnear hc (by rw [hu]; simp)
    have hiter : (undoOp E)^[(a :: l₂t).length] s =
        undoOp E ((undoOp E)^[l₂t.length] s) := by
      rw [List.length_cons, Function.iterate_succ_apply']
    refine ⟨E.decompress ua, ex ++ [E.compress c2], ?_, by simpa using hua, ?_⟩
    · rw [hiter, heq]
      cases s
      simp_all [undoOp, List.getLast?_concat, List.dropLast_concat]
    · have h1 : (tc :: (a :: l₂t).reverse).dropLast = tc :: l₂t.reverse := by
        rw [List.reverse_cons,
          show tc :: (l₂t.reverse ++ [a]) = (tc :: l₂t.reverse) ++ [a] by simp,
          List.dropLast_concat]
      rw [Tracks, h1, ← dropLast_cons_reverse tc l₂t]
      exact List.rel_append hTr
        (List.forall₂_cons.2 ⟨hpres c2 _ hnear2, List.Forall₂.nil⟩)

/-- The mirror image of `undo_run` for `redoOp` and the redo stack. -/
theorem redo_run (E : Ext Frame Snap) (near : Frame → Frame → Prop)
    (hpres : ∀ a b, near a b → near (E.decompress (E.compress a)) b) :
    ∀ (l₂ : List Frame) (rs₂ : List Snap), Tracks near E rs₂ l₂ →
    ∀ (s : Session Frame Snap) (rs₁ : List Snap) (c tc : Frame),
      near c tc → s.current_image = some c → s.redo_stack = rs₁ ++ rs₂ →
    ∃ c2 ex, (redoOp E)^[l₂.length] s =
        { s with current_image := some c2, redo_stack := rs₁,
                 undo_stack := s.undo_stack ++ ex } ∧
      near c2 (l₂.headD tc) ∧
      Tracks near E ex ((tc :: l₂.reverse).dropLast) := by
  intro l₂
  induction l₂ with
  | nil =>
    intro rs₂ hT s rs₁ c tc hnear hc hr
    cases hT
    refine ⟨c, [], ?_, by simpa using hnear, by simp [Tracks]⟩
    simp only [List.length_nil, Function.iterate_zero, id]
    rw [List.append_nil] at hr
    cases s
    simp_all
  | cons a l₂t ih =>
    intro rs₂ hT s rs₁ c tc hnear hc hr
    rcases List.forall₂_cons_right_iff.1 hT with ⟨ra, rst, hra, hrst, rfl⟩
    obtain ⟨c2, ex, heq, hnear2, hTr⟩ :=
      ih rst hrst s (rs₁ ++ [ra]) c tc hnear hc (by rw [hr]; simp)
    have hiter : (redoOp E)^[(a :: l₂t).length] s =
        redoOp E ((redoOp E)^[l₂t.length] s) := by
      rw [List.length_cons, Function.iterate_succ_apply']
    refine ⟨E.decompress ra, ex ++ [E.compress c2], ?_, by simpa using hra, ?_⟩
    · rw [hiter, heq]
      cases s
      simp_all [redoOp, List.getLast?_concat, List.dropLast_concat]
    · have h1 : (tc :: (a :: l₂t).reverse).dropLast = tc :: l₂t.reverse := by
        rw [List.reverse_cons,
          show tc :: (l₂t.reverse ++ [a]) = (tc :: l₂t.reverse) ++ [a] by simp,
          List.dropLast_concat]
      rw [Tracks, h1, ← dropLast_cons_reverse tc l₂t]
      exact List.rel_append hTr
        (List.forall₂_cons.2 ⟨hpres c2 _ hnear2, List.Forall₂.nil⟩)

/-- Running a sequence of snapshot-recording mutations: the current frame is
the fold of the mutations, the undo stack gains the compressed intermediate
frames in order, and the redo stack stays empty (no eviction happens while
the total stays within the bound). -/
theorem mutations_run (E : Ext Frame Snap) :
    ∀ (gs : List (Frame → Frame)) (s : Session Frame Snap) (c : Frame),
      s.current_image = some c → s.redo_stack = [] →
      s.undo_stack.length + gs.length ≤ max_stack_size →
      (runOps E (gs.map Op.filter) s).current_image = some (frameAt c gs) ∧
      (runOps E (gs.map Op.filter) s).undo_stack =
        s.undo_stack ++ (histFrames c gs).map E.compress ∧
      (runOps E (gs.map Op.filter) s).redo_stack = [] := by
  intro gs
  induction gs with
  | nil =>
    intro s c hc hr hlen
    refine ⟨?_, ?_, ?_⟩ <;> simp [runOps, frameAt, histFrames, hc, hr]
  | cons g gt ih =>
    intro s c hc hr hlen
    have hnolt : ¬ max_stack_size < (s.undo_stack ++ [E.compress c]).length := by
      simp only [List.length_append, List.length_singleton, max_stack_size,
        List.length_cons, List.length_nil] at *
      omega
    have hstep : stepOp E (Op.filter g) s =
        { s with current_image := some (g c),
                 undo_stack := s.undo_stack ++ [E.compress c],
                 redo_stack := [], has_unsaved_changes := true } := by
      simp only [stepOp, applyFilter, save_image_state, hc]
      rw [if_neg hnolt]
    have hrun : runOps E ((g :: gt).map Op.filter) s =
        runOps E (gt.map Op.filter) (stepOp E (Op.filter g) s) := rfl
    rw [hrun, hstep]
    obtain ⟨h1, h2, h3⟩ := ih
      { s with current_image := some (g c),
               undo_stack := s.undo_stack ++ [E.compress c],
               redo_stack := [], has_unsaved_changes := true }
      (g c) rfl rfl
      (by simp only [List.length_append, List.length_singleton,
            max_stack_size, List.length_cons, List.length_nil] at *
          omega)
    refine ⟨?_, ?_, h3⟩
    · rw [h1, frameAt_cons]
    · rw [h2]
      simp [histFrames]

/-- When the current image is `none`, both history stacks are empty —
preservation by the slider setters. -/
theorem sliders_none_inv (E : Ext Frame Snap) (v : Int) (s : Session Frame Snap)
    (h : s.current_image = none → s.undo_stack = [] ∧ s.redo_stack = []) :
    ((setBrightnessSlider E v s).current_image = none →
      (setBrightnessSlider E v s).undo_stack = [] ∧
      (setBrightnessSlider E v s).redo_stack = []) ∧
    ((setContrastSlider E v s).current_image = none →
      (setContrastSlider E v s).undo_stack = [] ∧
      (setContrastSlider E v s).redo_stack = []) ∧
    ((setSaturationSlider E v s).current_image = none →
      (setSaturationSlider E v s).undo_stack = [] ∧
      (setSaturationSlider E v s).redo_stack = []) ∧
    ((setHueSlider E v s).current_image = none →
      (setHueSlider E v s).undo_stack = [] ∧
      (setHueSlider E v s).redo_stack = []) := by
  refine ⟨?_, ?_, ?_, ?_⟩
  · by_cases hv : clamp v (-100) 100 = s.brightness_val
    · simpa [setBrightnessSlider, hv] using h
    · cases hcur : s.current_image with
      | none =>
        intro _
        have hst := h hcur
        simp [setBrightnessSlider, hv, apply_brightness, hcur, hst.1, hst.2]
      | some c =>
        intro hc
        simp [setBrightnessSlider, hv, apply_brightness, hcur] at hc
  · by_cases hv : clamp v 0 200 = s.contrast_val
    · simpa [setContrastSlider, hv] using h
    · cases hcur : s.current_image with
      | none =>
        intro _
        have hst := h hcur
        simp [setContrastSlider, hv, apply_contrast, hcur, hst.1, hst.2]
      | some c =>
        intro hc
        simp [setContrastSlider, hv, apply_contrast, hcur] at hc
  · by_cases hv : clamp v 0 200 = s.saturation_val
    · simpa [setSaturationSlider, hv] using h
    · cases hcur : s.current_image with
      | none =>
        intro _
        have hst := h hcur
        simp [setSaturationSlider, hv, apply_saturation, hcur, hst.1, hst.2]
      | some c =>
        intro hc
        simp [setSaturationSlider, hv, apply_saturation, hcur] at hc
  · by_cases hv : clamp v (-180) 180 = s.hue_val
    · simpa [setHueSlider, hv] using h
    · cases hcur : s.current_image with
      | none =>
        intro _
        have hst := h hcur
        simp [setHueSlider, hv, apply_hue, hcur, hst.1, hst.2]
      | some c =>
        intro hc
        simp [setHueSlider, hv, apply_hue, hcur] at hc

/-- When the current image is `none`, both history stacks are empty —
preservation by every operation. -/
theorem stepOp_none_inv (E : Ext Frame Snap) (op : Op Frame)
    (s : Session Frame Snap)
    (h : s.current_image = none → s.undo_stack = [] ∧ s.redo_stack = []) :
    (stepOp E op s).current_image = none →
    (stepOp E op s).undo_stack = [] ∧ (stepOp E op s).redo_stack = [] := by
  cases op with
  | load f => intro hc; simp [stepOp, load_image] at hc
  | filter fn =>
    cases hcur : s.current_image with
    | none => simpa [stepOp, applyFilter, hcur] using h
    | some c => intro hc; simp [stepOp, applyFilter, hcur] at hc
  | resetImage =>
    cases ho : s.original_image with
    | none => simpa [stepOp, reset_image, ho] using h
    | some g => intro hc; simp [stepOp, reset_image, ho] at hc
  | undo =>
    rcases h1 : s.undo_stack.getLast? with _ | top
    · simpa [stepOp, undoOp, h1] using h
    · rcases h2 : s.current_image with _ | cur
      · simpa [stepOp, undoOp, h1, h2] using h
      · intro hc; simp [stepOp, undoOp, h1, h2] at hc
  | redo =>
    rcases h1 : s.redo_stack.getLast? with _ | top
    · simpa [stepOp, redoOp, h1] using h
    · rcases h2 : s.current_image with _ | cur
      · simpa [stepOp, redoOp, h1, h2] using h
      · intro hc; simp [stepOp, redoOp, h1, h2] at hc
  | brightness v =>
    cases hcur : s.current_image with
    | none => simpa [stepOp, apply_brightness, hcur] using h
    | some c => intro hc; simp [stepOp, apply_brightness, hcur] at hc
  | contrast v =>
    cases hcur : s.current_image with
    | none => simpa [stepOp, apply_contrast, hcur] using h
    | some c => intro hc; simp [stepOp, apply_contrast, hcur] at hc
  | saturation v =>
    cases hcur : s.current_image with
    | none => simpa [stepOp, apply_saturation, hcur] using h
    | some c => intro hc; simp [stepOp, apply_saturation, hcur] at hc
  | hue v =>
    cases hcur : s.current_image with
    | none => simpa [stepOp, apply_hue, hcur] using h
    | some c => intro hc; simp [stepOp, apply_hue, hcur] at hc
  | setBrightness v => exact (sliders_none_inv E v s h).1
  | setContrast v => exact (sliders_none_inv E v s h).2.1
  | setSaturation v => exact (sliders_none_inv E v s h).2.2.1
  | setHue v => exact (sliders_none_inv E v s h).2.2.2
  | resetAdjustments =>
    have h1 := (sliders_none_inv E 0 s h).1
    have h2 := (sliders_none_inv E 100 (setBrightnessSlider E 0 s) h1).2.1
    have h3 := (sliders_none_inv E 100
      (setContrastSlider E 100 (setBrightnessSlider E 0 s)) h2).2.2.1
    have h4 := (sliders_none_inv E 0 (setSaturationSlider E 100
      (setContrastSlider E 100 (setBrightnessSlider E 0 s))) h3).2.2.2
    simpa [stepOp, reset_adjustments] using h4

/-- In every reachable session state, a missing current image implies both
history stacks are empty; hence `undoOp` / `redoOp` never meet a non-empty
stack without a current image (where the source would fault on
`compress_image(None)`). -/
theorem reachable_stacks_current (E : Ext Frame Snap) (ops : List (Op Frame))
    (hc : (runOps E ops (initSession : Session Frame Snap)).current_image =
      none) :
    (runOps E ops (initSession : Session Frame Snap)).undo_stack = [] ∧
    (runOps E ops (initSession : Session Frame Snap)).redo_stack = [] := by
  have h : ∀ (l : List (Op Frame)) (s : Session Frame Snap),
      (s.current_image = none → s.undo_stack = [] ∧ s.redo_stack = []) →
      (runOps E l s).current_image = none →
      (runOps E l s).undo_stack = [] ∧ (runOps E l s).redo_stack = [] := by
    intro l
    induction l with
    | nil => intro s hs; exact hs
    | cons op l ih =>
      intro s hs
      exact ih (stepOp E op s) (stepOp_none_inv E op s hs)
  exact h ops initSession (fun _ => ⟨rfl, rfl⟩) hc

/-- C2: load a frame, apply any N ≤ 20 snapshot-recording mutating
operations, then undo N times and redo N times.  After the mutations the
stacks hold (N, 0) snapshots; after k ≤ N undos the current frame is within
codec tolerance (`near`) of the (N-k)-th recorded frame — the frames come
back in reverse order — and the stacks hold (N-k, k); starting from the
fully undone state, j ≤ N redos bring the frames forward again, the current
frame within tolerance of the j-th frame, with stacks (j, N-j); at j = N
the stacks are back at their prior lengths (N, 0).  `near` abstracts
"pixel-identical up to the lossy compression tolerance" of the JPEG
codec: it is reflexive, and one more compress/decompress round trip stays
within tolerance of the tracked frame. -/
theorem c2_undo_redo_roundtrip (Frame Snap : Type) (E : Ext Frame Snap)
    (near : Frame → Frame → Prop)
    (hrefl : ∀ f, near f f)
    (hpres : ∀ a b, near a b → near (E.decompress (E.compress a)) b)
    (f0 : Frame) (gs : List (Frame → Frame)) (hN : gs.length ≤ max_stack_size)
    (s1 : Session Frame Snap)
    (hs1 : s1 = runOps E (Op.load f0 :: gs.map Op.filter) initSession) :
    (s1.undo_stack.length = gs.length ∧ s1.redo_stack.length = 0) ∧
    (∀ k, k ≤ gs.length →
      ((undoOp E)^[k] s1).undo_stack.length = gs.length - k ∧
      ((undoOp E)^[k] s1).redo_stack.length = k ∧
      ∃ c, ((undoOp E)^[k] s1).current_image = some c ∧
        near c (frameAt f0 (gs.take (gs.length - k)))) ∧
    (∀ j, j ≤ gs.length →
      ((redoOp E)^[j] ((undoOp E)^[gs.length] s1)).undo_stack.length = j ∧
      ((redoOp E)^[j] ((undoOp E)^[gs.length] s1)).redo_stack.length =
        gs.length - j ∧
      ∃ c, ((redoOp E)^[j] ((undoOp E)^[gs.length] s1)).current_image =
          some c ∧
        near c (frameAt f0 (gs.take j))) := by
  have hstep1 : runOps E (Op.load f0 :: gs.map Op.filter)
      (initSession : Session Frame Snap) =
      runOps E (gs.map Op.filter) (load_image f0 initSession) := rfl
  rw [hstep1] at hs1
  obtain ⟨hcur0, hundo0, hredo0⟩ := mutations_run E gs
    (load_image f0 (initSession : Session Frame Snap)) f0 rfl rfl
    (by simpa [load_image, initSession] using hN)
  set l := histFrames f0 gs with hl
  set tc := frameAt f0 gs with htc
  have hcur : s1.current_image = some tc := by rw [hs1]; exact hcur0
  have hundo : s1.undo_stack = l.map E.compress := by
    rw [hs1, hundo0]; simp [load_image, initSession]
  have hredo : s1.redo_stack = [] := by rw [hs1]; exact hredo0
  have hllen : l.length = gs.length := length_histFrames f0 gs
  refine ⟨⟨?_, ?_⟩, ?_, ?_⟩
  · rw [hundo]; simp [hllen]
  · rw [hredo]; rfl
  · intro k hk
    have htr2 : Tracks near E ((l.map E.compress).drop (gs.length - k))
        (l.drop (gs.length - k)) := by
      rw [← List.map_drop]
      exact tracks_map E near hrefl hpres _
    have hlen2 : (l.drop (gs.length - k)).length = k := by
      rw [List.length_drop, hllen]; omega
    obtain ⟨c2, ex, heq, hnear2, hTr⟩ := undo_run E near hpres _ _ htr2 s1
      ((l.map E.compress).take (gs.length - k)) tc tc (hrefl tc) hcur
      (by rw [hundo, List.take_append_drop])
    rw [hlen2] at heq
    have hexlen : ex.length = k := by
      have h := List.Forall₂.length_eq hTr
      simpa [List.length_dropLast, hlen2] using h
    refine ⟨?_, ?_, c2, ?_, ?_⟩
    · rw [heq]
      simp only [List.length_take, List.length_map, hllen]
      omega
    · rw [heq]
      simp [hredo, hexlen]
    · rw [heq]
    · have hhead : (l.drop (gs.length - k)).headD tc =
          frameAt f0 (gs.take (gs.length - k)) := by
        rcases Nat.lt_or_ge (gs.length - k) gs.length with hm | hm
        · rw [headD_drop, getD_histFrames gs f0 tc _ hm]
        · have hdrop : l.drop (gs.length - k) = [] :=
            List.drop_eq_nil_of_le (by rw [hllen]; omega)
          have hm' : gs.length - k = gs.length := by omega
          rw [hdrop, hm', List.take_length]
          rfl
      rw [← hhead]; exact hnear2
  · have htrFull : Tracks near E (l.map E.compress) l :=
      tracks_map E near hrefl hpres l
    obtain ⟨c0, exN, heqN, hnear0, hTrN⟩ := undo_run E near hpres l
      (l.map E.compress) htrFull s1 [] tc tc (hrefl tc) hcur
      (by rw [hundo]; simp)
    rw [hllen] at heqN
    have hhead0 : l.headD tc = f0 := by
      rw [hl, htc]; cases gs <;> rfl
    rw [hhead0] at hnear0
    have hTlen : ((tc :: l.reverse).dropLast).length = gs.length := by
      simp [List.length_dropLast, hllen]
    have hexNlen : exN.length = gs.length := by
      have h := List.Forall₂.length_eq hTrN
      rw [hTlen] at h
      exact h
    intro j hj
    rw [heqN]
    have htr3 : Tracks near E (exN.drop (gs.length - j))
        (((tc :: l.reverse).dropLast).drop (gs.length - j)) :=
      List.forall₂_drop _ hTrN
    have hlen3 : ((((tc :: l.reverse).dropLast)).drop (gs.length - j)).length
        = j := by
      rw [List.length_drop, hTlen]; omega
    obtain ⟨c3, ex3, heq3, hnear3, hTr3⟩ := redo_run E near hpres _ _ htr3
      { s1 with current_image := some c0, undo_stack := [],
                redo_stack := s1.redo_stack ++ exN }
      (exN.take (gs.length - j)) c0 f0 hnear0 rfl
      (by rw [hredo, List.nil_append]
          exact (List.take_append_drop _ _).symm)
    rw [hlen3] at heq3
    rw [heq3]
    have hex3len : ex3.length = j := by
      have h := List.Forall₂.length_eq hTr3
      simp only [List.length_dropLast, List.length_cons, List.length_reverse,
        hlen3] at h
      omega
    refine ⟨?_, ?_, c3, ?_, ?_⟩
    · simp [hex3len]
    · simp only [List.length_take, hexNlen]
      omega
    · rfl
    · have hheadT : ((((tc :: l.reverse).dropLast)).drop
          (gs.length - j)).headD f0 = frameAt f0 (gs.take j) := by
        rcases Nat.eq_zero_or_pos j with rfl | hj1
        · have hdropT : ((tc :: l.reverse).dropLast).drop (gs.length - 0) = [] :=
            List.drop_eq_nil_of_le (by rw [hTlen]; omega)
          rw [hdropT]
          rfl
        · rw [headD_drop]
          rw [getD_dropLast _ _ _
            (by simp only [List.length_cons, List.length_reverse, hllen]
                omega)]
          rcases Nat.eq_zero_or_pos (gs.length - j) with hm0 | hm1
          · rw [hm0, List.getD_cons_zero]
            have hjN : j = gs.length := by omega
            rw [hjN, List.take_length]
          · obtain ⟨m', hm'⟩ : ∃ m', gs.length - j = m' + 1 :=
              ⟨gs.length - j - 1, by omega⟩
            rw [hm', List.getD_cons_succ,
              getD_reverse _ _ _ (by rw [hllen]; omega), hllen]
            have hidx : gs.length - 1 - m' = j := by omega
            rw [hidx, getD_histFrames gs f0 f0 j (by omega)]
      rw [← hheadT]; exact hnear3

/-- Witness for C2: a lossless concrete instantiation with one mutation;
one undo empties the undo stack, and the following redo restores the
mutated frame and the stack lengths. -/
theorem c2_undo_redo_roundtrip_witness :
    ((undoOp extInt)^[1] (runOps extInt
      [Op.load (0 : Int), Op.filter (fun x => x + 1)]
      (initSession : Session Int Int))).undo_stack.length = 0 ∧
    ((redoOp extInt)^[1] ((undoOp extInt)^[1] (runOps extInt
      [Op.load (0 : Int), Op.filter (fun x => x + 1)]
      (initSession : Session Int Int)))).undo_stack.length = 1 ∧
    ∃ c, ((redoOp extInt)^[1] ((undoOp extInt)^[1] (runOps extInt
      [Op.load (0 : Int), Op.filter (fun x => x + 1)]
      (initSession : Session Int Int)))).current_image = some c ∧
      c = frameAt (0 : Int) ([fun x => x + 1].take 1) := by
  have h := c2_undo_redo_roundtrip Int Int extInt Eq (fun f => rfl)
    (fun a b hab => hab) 0 [fun x => x + 1] (by decide)
    (runOps extInt [Op.load (0 : Int), Op.filter (fun x => x + 1)]
      (initSession : Session Int Int)) rfl
  exact ⟨(h.2.1 1 (by decide)).1, (h.2.2 1 (by decide)).1,
    (h.2.2 1 (by decide)).2.2⟩

end PhotoEditor
